import Mathlib

/-!
# Verification of the markdown read-time estimation engine

Shallow embedding of `src/lib.rs` of the `markdown-readtime` crate.

Modelling choices:
* A Rust `char` (Unicode scalar value) is embedded as a `Nat` codepoint; a
  text span (`&str`) is a `List Nat` of codepoints.
* `char::is_whitespace` (the Unicode `White_Space` property) and
  `char::is_control` (general category Cc) are embedded by their exact
  codepoint tables.
* The external `pulldown_cmark` tokenizer is out of scope (spec §1); the
  engine is embedded as a function over the event stream it consumes, with
  an inductive `MdEvent` covering exactly the event shapes the `match` in
  `estimate_with_speed` distinguishes.
* The `f64` fields of `ReadSpeed` and the time synthesis arithmetic
  (`/`, `*`, `+`, `.ceil()`) are embedded exactly over `ℚ`; the final
  `as u64` cast (saturating at zero for negative values) is `Int.toNat`.
-/

/-- `char::is_whitespace`: the Unicode `White_Space` property, by codepoint. -/
def is_whitespace (c : Nat) : Bool :=
  (0x9 ≤ c && c ≤ 0xD) || c == 0x20 || c == 0x85 || c == 0xA0 || c == 0x1680 ||
  (0x2000 ≤ c && c ≤ 0x200A) || c == 0x2028 || c == 0x2029 || c == 0x202F ||
  c == 0x205F || c == 0x3000

/-- `char::is_control`: Unicode general category Cc, by codepoint. -/
def is_control (c : Nat) : Bool :=
  c ≤ 0x1F || (0x7F ≤ c && c ≤ 0x9F)

/-- `CharExt::is_emoji` (src/lib.rs lines 241-260): fixed allow-list of
codepoint ranges. -/
def is_emoji (c : Nat) : Bool :=
  (0x1F600 ≤ c && c ≤ 0x1F64F) ||  -- Emoticons
  (0x1F300 ≤ c && c ≤ 0x1F5FF) ||  -- Miscellaneous Symbols and Pictographs
  (0x1F680 ≤ c && c ≤ 0x1F6FF) ||  -- Transport and Map Symbols
  (0x1F700 ≤ c && c ≤ 0x1F77F) ||  -- Alchemical Symbols
  (0x1F780 ≤ c && c ≤ 0x1F7FF) ||  -- Geometric Shapes Extended
  (0x1F800 ≤ c && c ≤ 0x1F8FF) ||  -- Supplemental Arrows-C
  (0x1F900 ≤ c && c ≤ 0x1F9FF) ||  -- Supplemental Symbols and Pictographs
  (0x1FA00 ≤ c && c ≤ 0x1FA6F) ||  -- Chess Symbols
  (0x1FA70 ≤ c && c ≤ 0x1FAFF) ||  -- Symbols and Pictographs Extended-A
  (0x2600 ≤ c && c ≤ 0x26FF) ||    -- Miscellaneous Symbols
  (0x2700 ≤ c && c ≤ 0x27BF) ||    -- Dingbats
  c == 0x2B50 ||                   -- star
  c == 0x2B55                      -- heavy large circle

/-- `count_words` (src/lib.rs lines 167-177): the CJK-style counter. -/
def count_words (text : List Nat) (count_emoji : Bool) : Nat :=
  if count_emoji then
    (text.filter (fun c => !is_whitespace c && (!is_control c || is_emoji c))).length
  else
    (text.filter (fun c => !is_whitespace c)).length

/-- `str::split_whitespace` on codepoint lists: split on runs of whitespace,
discarding empty substrings.  `acc` holds the (reversed) current token. -/
def splitWhitespaceAux (l : List Nat) (acc : List Nat) : List (List Nat) :=
  match l with
  | [] => if acc = [] then [] else [acc.reverse]
  | c :: cs =>
    if is_whitespace c then
      (if acc = [] then [] else [acc.reverse]) ++ splitWhitespaceAux cs []
    else
      splitWhitespaceAux cs (c :: acc)

/-- `str::split_whitespace`, collecting the tokens. -/
def split_whitespace (l : List Nat) : List (List Nat) :=
  splitWhitespaceAux l []

/-- The per-token closure inside `count_english_words` (src/lib.rs lines
184-199): an emoji-bearing token contributes its non-emoji non-whitespace
character count plus its emoji count; any other token contributes 1. -/
def token_units (word : List Nat) : Nat :=
  let emoji_count := (word.filter (fun c => is_emoji c)).length
  if emoji_count > 0 then
    (word.filter (fun c => !is_emoji c && !is_whitespace c)).length + emoji_count
  else
    1

/-- `count_english_words` (src/lib.rs lines 180-204): the space-delimited
counter. -/
def count_english_words (text : List Nat) (count_emoji : Bool) : Nat :=
  if count_emoji then
    ((split_whitespace text).map token_units).sum
  else
    (split_whitespace text).length

/-- `ReadSpeed` (src/lib.rs lines 21-32); the `f64` fields are embedded as
rationals. -/
structure ReadSpeed where
  words_per_minute : ℚ
  seconds_per_image : ℚ
  seconds_per_code_block : ℚ
  count_emoji : Bool
  chinese : Bool

/-- `ReadSpeed::default` (src/lib.rs lines 34-44). -/
def ReadSpeed.default : ReadSpeed :=
  { words_per_minute := 200
    seconds_per_image := 12
    seconds_per_code_block := 20
    count_emoji := true
    chinese := true }

/-- `ReadTime` (src/lib.rs lines 6-17). -/
structure ReadTime where
  total_seconds : Nat
  formatted : String
  word_count : Nat
  image_count : Nat
  code_block_count : Nat
deriving DecidableEq

/-- The event stream consumed by `estimate_with_speed`, abstracting the
`pulldown_cmark` events to exactly the shapes its `match` distinguishes. -/
inductive MdEvent where
  | startImage
  | startCodeBlock
  | startOther
  | endImage
  | endCodeBlock
  | endOther
  | text (s : List Nat)
  | code (s : List Nat)
  | other
deriving DecidableEq

/-- The mutable locals of the event loop in `estimate_with_speed`
(src/lib.rs lines 98-102). -/
structure LoopState where
  word_count : Nat
  image_count : Nat
  code_block_count : Nat
  in_code_block : Bool
  in_image_alt : Bool
deriving DecidableEq

/-- Word-counter dispatch on `speed.chinese` (inlined twice in the source, in
the `Event::Text` and `Event::Code` arms, src/lib.rs lines 128-132/137-141). -/
def wordCounter (speed : ReadSpeed) (t : List Nat) : Nat :=
  if speed.chinese then count_words t speed.count_emoji
  else count_english_words t speed.count_emoji

/-- One iteration of the `for event in parser` loop of `estimate_with_speed`
(src/lib.rs lines 104-146). -/
def processEvent (speed : ReadSpeed) (s : LoopState) : MdEvent → LoopState
  | .startImage =>
      { s with image_count := s.image_count + 1, in_image_alt := true }
  | .startCodeBlock =>
      { s with code_block_count := s.code_block_count + 1, in_code_block := true }
  | .startOther => s
  | .endImage => { s with in_image_alt := false }
  | .endCodeBlock => { s with in_code_block := false }
  | .endOther => s
  | .text t =>
      if !s.in_image_alt && !s.in_code_block then
        { s with word_count := s.word_count + wordCounter speed t }
      else s
  | .code t =>
      if !s.in_code_block then
        { s with word_count := s.word_count + wordCounter speed t }
      else s
  | .other => s

/-- Initial loop state (src/lib.rs lines 98-102): all counters zero, both
flags false. -/
def initialState : LoopState :=
  { word_count := 0, image_count := 0, code_block_count := 0
    in_code_block := false, in_image_alt := false }

/-- The real-valued weighted sum of src/lib.rs lines 149-155:
`base_seconds + image_seconds + code_seconds`, over ℚ. -/
def rawTotal (wc ic cc : Nat) (speed : ReadSpeed) : ℚ :=
  (wc : ℚ) / speed.words_per_minute * 60 +
    (ic : ℚ) * speed.seconds_per_image +
    (cc : ℚ) * speed.seconds_per_code_block

/-- `(... ).ceil() as u64` (src/lib.rs line 155); the saturating cast of a
negative value is `Int.toNat`'s clamp to 0. -/
def computeTotalSeconds (wc ic cc : Nat) (speed : ReadSpeed) : Nat :=
  (⌈rawTotal wc ic cc speed⌉).toNat

/-- `format_time` (src/lib.rs lines 207-218). -/
def format_time (seconds : Nat) : String :=
  let minutes := seconds / 60
  let remaining_seconds := seconds % 60
  if minutes = 0 then
    toString seconds ++ "秒"
  else if remaining_seconds = 0 then
    toString minutes ++ "分钟"
  else
    toString minutes ++ "分" ++ toString remaining_seconds ++ "秒"

/-- `estimate_with_speed` (src/lib.rs lines 95-164), as a function of the
event stream the external tokenizer produces. -/
def estimate_with_speed (events : List MdEvent) (speed : ReadSpeed) : ReadTime :=
  let final := events.foldl (processEvent speed) initialState
  let ts := computeTotalSeconds final.word_count final.image_count
    final.code_block_count speed
  { total_seconds := ts
    formatted := format_time ts
    word_count := final.word_count
    image_count := final.image_count
    code_block_count := final.code_block_count }

/-- `estimate` (src/lib.rs lines 90-92). -/
def estimate (events : List MdEvent) : ReadTime :=
  estimate_with_speed events ReadSpeed.default

/-! ## Helper lemmas -/

theorem length_filter_mono {p q : Nat → Bool} (l : List Nat)
    (h : ∀ c, p c = true → q c = true) :
    (l.filter p).length ≤ (l.filter q).length := by
  induction l with
  | nil => simp
  | cons a as ih =>
    by_cases hp : p a = true
    · have hq := h a hp
      simp only [List.filter_cons, hp, hq, if_true, List.length_cons]
      omega
    · have hp' : p a = false := by simpa using hp
      cases hq : q a <;> simp only [List.filter_cons, hp', hq] <;> simp <;> omega

theorem emoji_ge_2600 (c : Nat) (h : is_emoji c = true) : 0x2600 ≤ c := by
  simp only [is_emoji, Bool.or_eq_true, Bool.and_eq_true, decide_eq_true_eq,
    beq_iff_eq] at h
  omega

theorem control_not_emoji (c : Nat) (h : is_control c = true) :
    is_emoji c = false := by
  cases he : is_emoji c
  · rfl
  · exfalso
    have h1 := emoji_ge_2600 c he
    simp only [is_control, Bool.or_eq_true, Bool.and_eq_true, decide_eq_true_eq] at h
    omega

theorem count_words_true_le_false (l : List Nat) :
    count_words l true ≤ count_words l false := by
  simp only [count_words, if_true, if_false]
  exact length_filter_mono l (fun c hc => by
    simp only [Bool.and_eq_true] at hc
    exact hc.1)

theorem one_le_token_units (w : List Nat) : 1 ≤ token_units w := by
  simp only [token_units]
  split
  · next h => omega
  · exact le_refl 1

theorem token_units_le_append (w m : List Nat) :
    token_units w ≤ token_units (w ++ m) := by
  by_cases h : (w.filter (fun c => is_emoji c)).length > 0
  · have hwm : ((w ++ m).filter (fun c => is_emoji c)).length > 0 := by
      rw [List.filter_append, List.length_append]
      omega
    have e1 : token_units w =
        (w.filter (fun c => !is_emoji c && !is_whitespace c)).length +
          (w.filter (fun c => is_emoji c)).length := by
      simp only [token_units, if_pos h]
    have e2 : token_units (w ++ m) =
        ((w ++ m).filter (fun c => !is_emoji c && !is_whitespace c)).length +
          ((w ++ m).filter (fun c => is_emoji c)).length := by
      simp only [token_units, if_pos hwm]
    rw [e1, e2]
    simp only [List.filter_append, List.length_append]
    omega
  · have h1 : token_units w = 1 := by
      simp only [token_units, if_neg h]
    rw [h1]
    exact one_le_token_units (w ++ m)

theorem splitWhitespaceAux_all_nonws :
    ∀ (m acc : List Nat), (∀ c ∈ m, is_whitespace c = false) →
      splitWhitespaceAux m acc =
        if acc.reverse ++ m = [] then [] else [acc.reverse ++ m] := by
  intro m
  induction m with
  | nil =>
    intro acc _
    simp only [splitWhitespaceAux, List.append_nil]
    by_cases hacc : acc = []
    · simp [hacc]
    · rw [if_neg hacc, if_neg (by simpa using hacc)]
  | cons c cs ih =>
    intro acc hm
    have hc : is_whitespace c = false := hm c (by simp)
    simp only [splitWhitespaceAux, hc, Bool.false_eq_true, if_false]
    rw [ih (c :: acc) (fun x hx => hm x (by simp [hx]))]
    have : (c :: acc).reverse ++ cs = acc.reverse ++ (c :: cs) := by
      simp
    rw [this]

theorem splitAux_sum_mono (f : List Nat → Nat)
    (hf : ∀ w m, f w ≤ f (w ++ m)) (m : List Nat)
    (hm : ∀ c ∈ m, is_whitespace c = false) :
    ∀ (l acc : List Nat),
      ((splitWhitespaceAux l acc).map f).sum ≤
        ((splitWhitespaceAux (l ++ m) acc).map f).sum := by
  intro l
  induction l with
  | nil =>
    intro acc
    simp only [List.nil_append]
    rw [splitWhitespaceAux_all_nonws m acc hm]
    by_cases hacc : acc = []
    · simp [splitWhitespaceAux, hacc]
    · rw [show splitWhitespaceAux [] acc = [acc.reverse] by
        simp [splitWhitespaceAux, hacc]]
      have hne : acc.reverse ++ m ≠ [] := by
        simp [hacc]
      rw [if_neg hne]
      simpa using hf acc.reverse m
  | cons c cs ih =>
    intro acc
    by_cases hws : is_whitespace c = true
    · simp only [List.cons_append, splitWhitespaceAux, hws, if_true,
        List.map_append, List.sum_append]
      exact Nat.add_le_add_left (ih []) _
    · have hws' : is_whitespace c = false := by simpa using hws
      simp only [List.cons_append, splitWhitespaceAux, hws', Bool.false_eq_true,
        if_false]
      exact ih (c :: acc)

theorem sum_map_one (toks : List (List Nat)) :
    (toks.map (fun _ => 1)).sum = toks.length := by
  induction toks with
  | nil => rfl
  | cons t ts ih =>
    simp only [List.map_cons, List.sum_cons, List.length_cons, ih]
    omega

theorem length_le_sum_token_units (toks : List (List Nat)) :
    toks.length ≤ (toks.map token_units).sum := by
  induction toks with
  | nil => simp
  | cons t ts ih =>
    simp only [List.length_cons, List.map_cons, List.sum_cons]
    have := one_le_token_units t
    omega

/-! ## Claim theorems -/

/-- C3: the CJK-style count (`count_words`) with emoji counting enabled counts
every character that is not whitespace, excluding control characters unless
they are classified as emoji; with emoji counting disabled it counts all
non-whitespace characters; and the module's test vector "你好，世界！"
(codepoints 0x4F60 0x597D 0xFF0C 0x4E16 0x754C 0xFF01) with emoji counting on
yields 6. -/
theorem count_words_spec (l : List Nat) :
    count_words l true =
      l.countP (fun c => !is_whitespace c && (!is_control c || is_emoji c)) ∧
    count_words l false = l.countP (fun c => !is_whitespace c) ∧
    count_words [0x4F60, 0x597D, 0xFF0C, 0x4E16, 0x754C, 0xFF01] true = 6 := by
  refine ⟨?_, ?_, by decide⟩
  · simp [count_words, List.countP_eq_length_filter]
  · simp [count_words, List.countP_eq_length_filter]

/-- C4: the space-delimited count (`count_english_words`) splits on whitespace
runs; with emoji counting enabled a token containing at least one emoji
contributes its non-emoji non-whitespace character count plus its emoji
character count, a token with no emoji contributes exactly 1, and with emoji
counting disabled the result is the token count; the module's test vector
"Hello world! This is a test." with emoji counting on yields 6. -/
theorem count_english_words_spec (l w : List Nat) :
    ((w.filter (fun c => is_emoji c)).length > 0 →
      token_units w =
        (w.filter (fun c => !is_emoji c && !is_whitespace c)).length +
          (w.filter (fun c => is_emoji c)).length) ∧
    ((w.filter (fun c => is_emoji c)).length = 0 → token_units w = 1) ∧
    count_english_words l true = ((split_whitespace l).map token_units).sum ∧
    count_english_words l false = (split_whitespace l).length ∧
    count_english_words
      [72, 101, 108, 108, 111, 32, 119, 111, 114, 108, 100, 33, 32, 84, 104,
       105, 115, 32, 105, 115, 32, 97, 32, 116, 101, 115, 116, 46] true = 6 := by
  refine ⟨?_, ?_, rfl, rfl, by decide⟩
  · intro h
    simp only [token_units, if_pos h]
  · intro h
    simp only [token_units, h, gt_iff_lt, lt_self_iff_false, if_false]

/-- Witness for C4: a single-emoji token decomposes into 0 + 1 units, and a
plain ASCII token contributes exactly 1. -/
theorem count_english_words_spec_witness :
    token_units [0x1F600] =
      ([0x1F600].filter (fun c => !is_emoji c && !is_whitespace c)).length +
        ([0x1F600].filter (fun c => is_emoji c)).length ∧
    token_units [72] = 1 :=
  ⟨(count_english_words_spec [] [0x1F600]).1 (by decide),
   (count_english_words_spec [] [72]).2.1 (by decide)⟩

/-- Counterexample to C5 as stated: the span consisting of the single emoji
U+1F600 contains an emoji, yet flipping `count_emoji` from true to false
leaves the returned count unchanged (1 = 1) in both the CJK-style and the
space-delimited mode. -/
theorem flag_flip_counterexample :
    is_emoji 0x1F600 = true ∧
    count_words [0x1F600] true = count_words [0x1F600] false ∧
    count_english_words [0x1F600] true = count_english_words [0x1F600] false := by
  decide

/-- C5 (amended): for every text span containing at least one emoji
character, changing only `count_emoji` from true to false yields the count
given by the §4.2 disabled-mode rules — the non-whitespace character count in
CJK mode and the whitespace-token count in space-delimited mode — which is
never below the enabled-mode count in CJK mode and never above it in
space-delimited mode, but need not differ from it. -/
theorem flag_flip_amended (l : List Nat) (_h : ∃ c ∈ l, is_emoji c = true) :
    count_words l false = (l.filter (fun c => !is_whitespace c)).length ∧
    count_english_words l false = (split_whitespace l).length ∧
    count_words l true ≤ count_words l false ∧
    count_english_words l false ≤ count_english_words l true := by
  refine ⟨rfl, rfl, count_words_true_le_false l, ?_⟩
  simp only [count_english_words, if_pos, if_neg]
  exact length_le_sum_token_units (split_whitespace l)

/-- Witness for C5 (amended), at the single-emoji span U+1F600. -/
theorem flag_flip_amended_witness :
    count_words [0x1F600] false =
      ([0x1F600].filter (fun c => !is_whitespace c)).length ∧
    count_english_words [0x1F600] false = (split_whitespace [0x1F600]).length ∧
    count_words [0x1F600] true ≤ count_words [0x1F600] false ∧
    count_english_words [0x1F600] false ≤ count_english_words [0x1F600] true :=
  flag_flip_amended [0x1F600] ⟨0x1F600, by simp, by decide⟩

/-- C6: under a fixed language mode and emoji flag, appending non-whitespace
content never decreases the count returned by the Word Counter. -/
theorem wordCounter_append_mono (speed : ReadSpeed) (l m : List Nat)
    (hm : ∀ c ∈ m, is_whitespace c = false) :
    wordCounter speed l ≤ wordCounter speed (l ++ m) := by
  unfold wordCounter
  by_cases hch : speed.chinese = true
  · simp only [hch, if_true]
    cases hce : speed.count_emoji <;>
      simp [count_words, List.filter_append]
  · have hch' : speed.chinese = false := by simpa using hch
    simp only [hch', Bool.false_eq_true, if_false]
    cases hce : speed.count_emoji
    · simp only [count_english_words, if_neg, split_whitespace]
      have := splitAux_sum_mono (fun _ => 1) (fun _ _ => le_refl 1) m hm l []
      rwa [sum_map_one, sum_map_one] at this
    · simp only [count_english_words, if_pos, split_whitespace]
      exact splitAux_sum_mono token_units token_units_le_append m hm l []

/-- Witness for C6: appending the non-whitespace codepoint 0x597D to the span
[0x4F60] does not decrease the default-model word count. -/
theorem wordCounter_append_mono_witness :
    wordCounter ReadSpeed.default [0x4F60] ≤
      wordCounter ReadSpeed.default ([0x4F60] ++ [0x597D]) :=
  wordCounter_append_mono ReadSpeed.default [0x4F60] [0x597D] (by decide)

/-- C2: a text-span event adds a span's word count only when neither
`in_image_alt` nor `in_code_block` is set (otherwise it adds nothing), while
an inline-code event adds the span's word count whenever `in_code_block` is
not set.  Stated per loop iteration, hence holding along every event
stream folded by `estimate_with_speed`. -/
theorem text_and_code_gating (speed : ReadSpeed) (s : LoopState) (t : List Nat) :
    (processEvent speed s (.text t)).word_count =
      s.word_count +
        (if s.in_image_alt = false ∧ s.in_code_block = false
         then wordCounter speed t else 0) ∧
    (processEvent speed s (.code t)).word_count =
      s.word_count +
        (if s.in_code_block = false then wordCounter speed t else 0) := by
  constructor
  · cases hA : s.in_image_alt <;> cases hC : s.in_code_block <;>
      simp [processEvent, hA, hC]
  · cases hC : s.in_code_block <;> simp [processEvent, hC]

/-- C8: with `m = total_seconds div 60` and `s = total_seconds mod 60`,
`format_time` renders the seconds-only form when `m = 0`, the minutes-only
form when `m > 0` and `s = 0`, and the combined form otherwise (the unit
suffixes being the locale display strings "秒", "分钟" and "分"/"秒"). -/
theorem format_time_spec (n : Nat) :
    (n / 60 = 0 → format_time n = toString (n % 60) ++ "秒") ∧
    (n / 60 ≠ 0 → n % 60 = 0 → format_time n = toString (n / 60) ++ "分钟") ∧
    (n / 60 ≠ 0 → n % 60 ≠ 0 →
      format_time n = toString (n / 60) ++ "分" ++ toString (n % 60) ++ "秒") := by
  refine ⟨?_, ?_, ?_⟩
  · intro h
    have hlt : n < 60 := by omega
    simp only [format_time, h, if_true]
    rw [Nat.mod_eq_of_lt hlt]
  · intro h1 h2
    simp only [format_time]
    rw [if_neg h1, if_pos h2]
  · intro h1 h2
    simp only [format_time]
    rw [if_neg h1, if_neg h2]

/-- Witness for C8: 59, 120 and 61 seconds exercise the three branches. -/
theorem format_time_spec_witness :
    format_time 59 = toString (59 % 60) ++ "秒" ∧
    format_time 120 = toString (120 / 60) ++ "分钟" ∧
    format_time 61 = toString (61 / 60) ++ "分" ++ toString (61 % 60) ++ "秒" :=
  ⟨(format_time_spec 59).1 (by decide),
   (format_time_spec 120).2.1 (by decide) (by decide),
   (format_time_spec 61).2.2 (by decide) (by decide)⟩

/-- C9: an end-image or end-code-block event clears the corresponding state
flag unconditionally (even when it is already clear) and changes nothing
else, so unmatched end events never fail; in particular a stream prefixed by
unmatched end events estimates exactly as the stream without them, and the
pass always produces a result (`estimate_with_speed` is a total function). -/
theorem unmatched_end_events (speed : ReadSpeed) (s : LoopState)
    (events : List MdEvent) :
    processEvent speed s .endCodeBlock = { s with in_code_block := false } ∧
    processEvent speed s .endImage = { s with in_image_alt := false } ∧
    estimate_with_speed (.endCodeBlock :: .endImage :: events) speed =
      estimate_with_speed events speed :=
  ⟨rfl, rfl, rfl⟩

/-- C10 (implicit): every codepoint classified as emoji by `is_emoji` lies at
or above U+2600, so no control character is classified as emoji; hence
`count_words` with emoji counting enabled counts exactly the characters that
are neither whitespace nor control, and never exceeds `count_words` with
emoji counting disabled. -/
theorem is_emoji_above_control :
    (∀ c, is_emoji c = true → 0x2600 ≤ c) ∧
    (∀ c, is_control c = true → is_emoji c = false) ∧
    (∀ l : List Nat, count_words l true =
      (l.filter (fun c => !is_whitespace c && !is_control c)).length) ∧
    (∀ l : List Nat, count_words l true ≤ count_words l false) := by
  refine ⟨emoji_ge_2600, control_not_emoji, ?_, count_words_true_le_false⟩
  intro l
  simp only [count_words, if_true]
  congr 1
  apply List.filter_congr
  intro c _
  cases hctrl : is_control c
  · simp
  · simp [control_not_emoji c hctrl]

/-- Witness for C10: the emoji U+1F600 lies above U+2600, the control
character U+001F is not an emoji, and both `count_words` facts hold on a
concrete span. -/
theorem is_emoji_above_control_witness :
    0x2600 ≤ 0x1F600 ∧
    is_emoji 0x1F = false ∧
    count_words [0x4E16] true =
      ([0x4E16].filter (fun c => !is_whitespace c && !is_control c)).length ∧
    count_words [0x4E16] true ≤ count_words [0x4E16] false :=
  ⟨is_emoji_above_control.1 0x1F600 (by decide),
   is_emoji_above_control.2.1 0x1F (by decide),
   is_emoji_above_control.2.2.1 [0x4E16],
   is_emoji_above_control.2.2.2 [0x4E16]⟩

/-- An event that carries no countable content: not a text span, not an
inline-code span, not an image start, not a code-block start. -/
def contentFree : MdEvent → Bool
  | .text _ => false
  | .code _ => false
  | .startImage => false
  | .startCodeBlock => false
  | _ => true

theorem processEvent_counts_contentFree (speed : ReadSpeed) (s : LoopState)
    (e : MdEvent) (h : contentFree e = true) :
    (processEvent speed s e).word_count = s.word_count ∧
    (processEvent speed s e).image_count = s.image_count ∧
    (processEvent speed s e).code_block_count = s.code_block_count := by
  cases e <;> simp_all [contentFree, processEvent]

theorem foldl_counts_contentFree (speed : ReadSpeed) :
    ∀ (events : List MdEvent) (s : LoopState),
      (∀ e ∈ events, contentFree e = true) →
      (events.foldl (processEvent speed) s).word_count = s.word_count ∧
      (events.foldl (processEvent speed) s).image_count = s.image_count ∧
      (events.foldl (processEvent speed) s).code_block_count =
        s.code_block_count := by
  intro events
  induction events with
  | nil => intro s _; exact ⟨rfl, rfl, rfl⟩
  | cons e es ih =>
    intro s h
    have he := processEvent_counts_contentFree speed s e (h e (by simp))
    have hes := ih (processEvent speed s e) (fun x hx => h x (by simp [hx]))
    simp only [List.foldl_cons]
    omega

theorem rawTotal_zero (speed : ReadSpeed) : rawTotal 0 0 0 speed = 0 := by
  simp [rawTotal]

/-- C7: on any event stream with no text spans, no inline-code spans, no
image starts and no code-block starts (in particular the empty stream),
`estimate` returns all counts zero, `total_seconds = 0`, and the
zero-seconds rendering "0秒". -/
theorem estimate_empty_document (events : List MdEvent)
    (h : ∀ e ∈ events, contentFree e = true) :
    estimate events =
      { total_seconds := 0, formatted := "0秒",
        word_count := 0, image_count := 0, code_block_count := 0 } := by
  obtain ⟨hw, hi, hc⟩ :=
    foldl_counts_contentFree ReadSpeed.default events initialState h
  have hw0 : (events.foldl (processEvent ReadSpeed.default)
      initialState).word_count = 0 := hw
  have hi0 : (events.foldl (processEvent ReadSpeed.default)
      initialState).image_count = 0 := hi
  have hc0 : (events.foldl (processEvent ReadSpeed.default)
      initialState).code_block_count = 0 := hc
  have hts : computeTotalSeconds 0 0 0 ReadSpeed.default = 0 := by
    simp [computeTotalSeconds, rawTotal_zero]
  simp only [estimate, estimate_with_speed, hw0, hi0, hc0, hts]
  rfl

/-- Witness for C7: the empty event stream. -/
theorem estimate_empty_document_witness :
    estimate [] =
      { total_seconds := 0, formatted := "0秒",
        word_count := 0, image_count := 0, code_block_count := 0 } :=
  estimate_empty_document [] (by simp)

theorem rawTotal_nonneg (wc ic cc : Nat) (speed : ReadSpeed)
    (hw : 0 < speed.words_per_minute) (hi : 0 ≤ speed.seconds_per_image)
    (hc : 0 ≤ speed.seconds_per_code_block) :
    0 ≤ rawTotal wc ic cc speed := by
  unfold rawTotal
  have h1 : (0 : ℚ) ≤ (wc : ℚ) / speed.words_per_minute * 60 :=
    mul_nonneg (div_nonneg (Nat.cast_nonneg wc) hw.le) (by norm_num)
  have h2 : (0 : ℚ) ≤ (ic : ℚ) * speed.seconds_per_image :=
    mul_nonneg (Nat.cast_nonneg ic) hi
  have h3 : (0 : ℚ) ≤ (cc : ℚ) * speed.seconds_per_code_block :=
    mul_nonneg (Nat.cast_nonneg cc) hc
  linarith

theorem computeTotalSeconds_bounds (wc ic cc : Nat) (speed : ReadSpeed)
    (hw : 0 < speed.words_per_minute) (hi : 0 ≤ speed.seconds_per_image)
    (hc : 0 ≤ speed.seconds_per_code_block) :
    rawTotal wc ic cc speed ≤ (computeTotalSeconds wc ic cc speed : ℚ) ∧
    (computeTotalSeconds wc ic cc speed : ℚ) < rawTotal wc ic cc speed + 1 := by
  have h0 := rawTotal_nonneg wc ic cc speed hw hi hc
  have hceil : (0 : ℤ) ≤ ⌈rawTotal wc ic cc speed⌉ := Int.ceil_nonneg h0
  have hcast : ((computeTotalSeconds wc ic cc speed : Nat) : ℚ) =
      ((⌈rawTotal wc ic cc speed⌉ : ℤ) : ℚ) := by
    unfold computeTotalSeconds
    norm_cast
    exact Int.toNat_of_nonneg hceil
  rw [hcast]
  exact ⟨Int.le_ceil _, Int.ceil_lt_add_one _⟩

/-- C1: for every event stream and every speed model with positive
words-per-minute and nonnegative per-image/per-code-block charges,
`estimate_with_speed` returns a `total_seconds` equal to the ceiling of
`(word_count / words_per_minute) * 60 + image_count * seconds_per_image +
code_block_count * seconds_per_code_block` cast to an unsigned integer:
never strictly less than the unrounded rational sum, and exceeding it by
less than 1. -/
theorem total_seconds_is_ceiling (events : List MdEvent) (speed : ReadSpeed)
    (hw : 0 < speed.words_per_minute) (hi : 0 ≤ speed.seconds_per_image)
    (hc : 0 ≤ speed.seconds_per_code_block) :
    (estimate_with_speed events speed).total_seconds =
      (⌈rawTotal (estimate_with_speed events speed).word_count
          (estimate_with_speed events speed).image_count
          (estimate_with_speed events speed).code_block_count speed⌉).toNat ∧
    rawTotal (estimate_with_speed events speed).word_count
        (estimate_with_speed events speed).image_count
        (estimate_with_speed events speed).code_block_count speed ≤
      ((estimate_with_speed events speed).total_seconds : ℚ) ∧
    ((estimate_with_speed events speed).total_seconds : ℚ) <
      rawTotal (estimate_with_speed events speed).word_count
          (estimate_with_speed events speed).image_count
          (estimate_with_speed events speed).code_block_count speed + 1 := by
  refine ⟨rfl, ?_, ?_⟩
  · exact (computeTotalSeconds_bounds _ _ _ speed hw hi hc).1
  · exact (computeTotalSeconds_bounds _ _ _ speed hw hi hc).2

/-- Witness for C1: the empty stream under the default speed model. -/
theorem total_seconds_is_ceiling_witness :
    (estimate_with_speed [] ReadSpeed.default).total_seconds =
      (⌈rawTotal (estimate_with_speed [] ReadSpeed.default).word_count
          (estimate_with_speed [] ReadSpeed.default).image_count
          (estimate_with_speed [] ReadSpeed.default).code_block_count
          ReadSpeed.default⌉).toNat ∧
    rawTotal (estimate_with_speed [] ReadSpeed.default).word_count
        (estimate_with_speed [] ReadSpeed.default).image_count
        (estimate_with_speed [] ReadSpeed.default).code_block_count
        ReadSpeed.default ≤
      ((estimate_with_speed [] ReadSpeed.default).total_seconds : ℚ) ∧
    ((estimate_with_speed [] ReadSpeed.default).total_seconds : ℚ) <
      rawTotal (estimate_with_speed [] ReadSpeed.default).word_count
          (estimate_with_speed [] ReadSpeed.default).image_count
          (estimate_with_speed [] ReadSpeed.default).code_block_count
          ReadSpeed.default + 1 :=
  total_seconds_is_ceiling [] ReadSpeed.default
    (by norm_num [ReadSpeed.default]) (by norm_num [ReadSpeed.default])
    (by norm_num [ReadSpeed.default])
